import Mathlib

/-!
Shallow embedding of the GitHub-actions input/output marshaling layer of
`ts-github` (`src/github-action.ts` and its sibling revision with input-name
overrides and nullable outputs), together with theorems settling the frozen
claims about it.

JavaScript conventions are embedded as follows: `undefined`/absent raw strings
are `Option String`; thrown exceptions are `Except Err`; the JS value universe
that validators produce (the `unknown` of `InputValidator<unknown>`) is the
inductive `Value`, with `Value.undef` standing for the literal `undefined`.
-/

/-- Errors thrown by the library: a plain `Error(message)` or a `VError`
wrapping a cause, optionally carrying a `name` (e.g. `GetInputsError`). -/
inductive Err where
  | simple (msg : String)
  | wrapped (name : Option String) (msg : String) (cause : Err)
deriving DecidableEq, Repr

/-- Model of `VError.fullStack`: renders the error message together with the
whole chain of causes (the textual layout of the real rendering is abstracted;
what matters is that every cause in the chain is included). -/
def fullStack : Err → String
  | .simple msg => msg
  | .wrapped _ msg cause => msg ++ ": caused by: " ++ fullStack cause

/-- The universe of values the built-in validators can produce, i.e. the
`unknown` result type used by `getInputs`; `undef` is JS `undefined`. -/
inductive Value where
  | undef
  | str (s : String)
  | bool (b : Bool)
  | arr (tokens : List String)
deriving DecidableEq, Repr

/-- A `default` option value: either a static value (possibly the literal
`undefined`, i.e. `Value.undef`) or a zero-argument `Provider` which may
itself throw. -/
inductive Dflt where
  | value (v : Value)
  | provider (f : Unit → Except Err Value)

/-- The part of a validator's options object that `parseInput` consults:
whether the `default` key is present (`dflt = some _`) and what it holds.
JS `hasOwnProperty(options, "default")` is `dflt.isSome`. -/
structure ParseOpts where
  dflt : Option Dflt

/-- The error thrown for a required input with no raw value. -/
def missingInputErr : Err :=
  .simple "input is missing value and no default was provided"

/-- The error wrapping a default-value provider's own failure
(`new VError(cause, "default value provider threw")` in the source). -/
def providerThrewErr (cause : Err) : Err :=
  .wrapped none "default value provider threw" cause

/-- Translation of `parseInput` from `src/github-action.ts`, instrumented with
an invocation counter for the lazy default provider: the first component of
the result is the number of times `options.default()` was called (the call
site appears exactly once in the source), the second is what `parseInput`
returns or throws.  The source's `options == null ||
!hasOwnProperty(options, "default")` is `required`; `input == null ||
input === ""` is the split on `input` below; the trailing
`return options.default` covers both the static-default and the (unreachable)
absent-key branch, where JS property access yields `undefined`. -/
def parseInputT (input : Option String) (transform : String → Except Err Value)
    (options : Option ParseOpts) : Nat × Except Err Value :=
  let required : Bool :=
    match options with
    | none => true
    | some o => o.dflt.isNone
  let onMissing : Nat × Except Err Value :=
    if required then (0, .error missingInputErr)
    else
      match options with
      | none => (0, .error (.simple "unexpected null options"))
      | some o =>
        match o.dflt with
        | some (.provider f) =>
          (match f () with
           | .ok v => (1, .ok v)
           | .error e => (1, .error (providerThrewErr e)))
        | some (.value v) => (0, .ok v)
        | none => (0, .ok .undef)
  match input with
  | none => onMissing
  | some s => if s = "" then onMissing else (0, transform s)

/-- Plain `parseInput`: the result component of the instrumented version. -/
def parseInput (input : Option String) (transform : String → Except Err Value)
    (options : Option ParseOpts) : Except Err Value :=
  (parseInputT input transform options).2

/-- A validator object: the optional input-name override and the `parse`
operation (`InputValidator<unknown>` as consumed by `getInputs`). -/
structure Validator where
  name : Option String
  parse : Option String → Except Err Value

/-- The error thrown for a string input that misses its `choices` set. -/
def invalidChoiceErr (input : String) (choices : List String) : Err :=
  .simple ("invalid value: " ++ input ++ " for string input with choices: "
    ++ "[" ++ String.intercalate "," (choices.map (fun c => "\"" ++ c ++ "\"")) ++ "]")

/-- The transform `stringInput` hands to `parseInput`: pass the raw value
through unless a non-empty `choices` list is configured, in which case the
value must be a member or an error is thrown. -/
def stringTransform (choices : Option (List String)) (input : String) :
    Except Err Value :=
  match choices with
  | none => .ok (.str input)
  | some cs =>
    if cs.length = 0 then .ok (.str input)
    else if cs.contains input then .ok (.str input)
    else .error (invalidChoiceErr input cs)

/-- Options accepted by `stringInput`; `dflt` models the `default` key
(`some _` iff the key is present on the options object). -/
structure StringOptions where
  name : Option String := none
  dflt : Option Dflt := none
  choices : Option (List String) := none

/-- Projection of `stringInput` options to the shape `parseInput` consults
(the source passes the very same options object along). -/
def StringOptions.toParseOpts (o : StringOptions) : ParseOpts := ⟨o.dflt⟩

/-- The `choices` destructured from a possibly-absent options object
(`const \x7b choices \x7d = options || \x7b\x7d`). -/
def stringChoices : Option StringOptions → Option (List String)
  | none => none
  | some o => o.choices

/-- The `name` destructured from a possibly-absent `stringInput` options
object. -/
def stringName : Option StringOptions → Option String
  | none => none
  | some o => o.name

/-- Translation of `stringInput`: builds the validator whose `parse` runs
`parseInput` with the choice-checking transform. -/
def stringInput (options : Option StringOptions) : Validator :=
  { name := stringName options
    parse := fun input =>
      (parseInputT input (stringTransform (stringChoices options))
        (options.map StringOptions.toParseOpts)).2 }

/-- The number of default-provider invocations a `stringInput` parse performs
(the counter component of the same instrumented run as `stringInput.parse`). -/
def stringInputCalls (options : Option StringOptions) (input : Option String) : Nat :=
  (parseInputT input (stringTransform (stringChoices options))
    (options.map StringOptions.toParseOpts)).1

/-- JS `String.prototype.split` with a plain-string separator (the `RegExp`
separator alternative is not exercised by any claim): an empty separator
splits into single characters, otherwise it is `splitOn`. -/
def jsSplit (sep : String) (s : String) : List String :=
  if sep = "" then s.data.map (fun c => String.mk [c]) else s.splitOn sep

/-- The transform `arrayInput` hands to `parseInput`: split on the separator
and optionally trim each token. -/
def arrayTransform (sep : String) (trim : Bool) (input : String) :
    Except Err Value :=
  let tokens := jsSplit sep input
  if !trim then .ok (.arr tokens)
  else .ok (.arr (tokens.map String.trim))

/-- Options accepted by `arrayInput`. -/
structure ArrayOptions where
  name : Option String := none
  dflt : Option Dflt := none
  separator : Option String := none
  trim : Option Bool := none

/-- Projection of `arrayInput` options to the shape `parseInput` consults. -/
def ArrayOptions.toParseOpts (o : ArrayOptions) : ParseOpts := ⟨o.dflt⟩

/-- The separator destructured with its default
(`const \x7b separator = "," \x7d = options || \x7b\x7d`). -/
def arraySeparator : Option ArrayOptions → String
  | none => ","
  | some o => o.separator.getD ","

/-- The trim flag destructured with its default. -/
def arrayTrim : Option ArrayOptions → Bool
  | none => false
  | some o => o.trim.getD false

/-- The `name` destructured from a possibly-absent `arrayInput` options
object. -/
def arrayName : Option ArrayOptions → Option String
  | none => none
  | some o => o.name

/-- Translation of `arrayInput`: separator defaults to `","`, trimming to
`false`. -/
def arrayInput (options : Option ArrayOptions) : Validator :=
  { name := arrayName options
    parse := fun input =>
      (parseInputT input
        (arrayTransform (arraySeparator options) (arrayTrim options))
        (options.map ArrayOptions.toParseOpts)).2 }

/-- The number of default-provider invocations an `arrayInput` parse performs. -/
def arrayInputCalls (options : Option ArrayOptions) (input : Option String) : Nat :=
  (parseInputT input
    (arrayTransform (arraySeparator options) (arrayTrim options))
    (options.map ArrayOptions.toParseOpts)).1

/-- The transform `booleanInput` hands to `parseInput`: only the literal
tokens `"true"` and `"false"` are accepted. -/
def booleanTransform (input : String) : Except Err Value :=
  if input = "true" then .ok (.bool true)
  else if input = "false" then .ok (.bool false)
  else .error (.simple ("invalid boolean input: " ++ input))

/-- Options accepted by `booleanInput`. -/
structure BooleanOptions where
  name : Option String := none
  dflt : Option Dflt := none

/-- Projection of `booleanInput` options to the shape `parseInput` consults. -/
def BooleanOptions.toParseOpts (o : BooleanOptions) : ParseOpts := ⟨o.dflt⟩

/-- The `name` destructured from a possibly-absent `booleanInput` options
object. -/
def booleanName : Option BooleanOptions → Option String
  | none => none
  | some o => o.name

/-- Translation of `booleanInput`. -/
def booleanInput (options : Option BooleanOptions) : Validator :=
  { name := booleanName options
    parse := fun input =>
      (parseInputT input booleanTransform
        (options.map BooleanOptions.toParseOpts)).2 }

/-- The number of default-provider invocations a `booleanInput` parse performs. -/
def booleanInputCalls (options : Option BooleanOptions) (input : Option String) : Nat :=
  (parseInputT input booleanTransform (options.map BooleanOptions.toParseOpts)).1

/-- The environment key a raw input name is looked up under: translation of
`getInput` from the source, i.e. prepend `INPUT_` to the name with spaces
replaced by underscores (the `replace(/ /g, "_")` map) and the whole
upper-cased (the `toUpperCase()` map); both passes are written over the
character list so that the kernel can evaluate them. -/
def envKeyOf (name : String) : String :=
  "INPUT_" ++ String.mk
    (((name.data.map (fun c => if c = ' ' then '_' else c)).map Char.toUpper))

/-- Translation of `getInput`: read the derived key from the environment
(the environment is passed explicitly as a partial map). -/
def getInput (env : String → Option String) (name : String) : Option String :=
  env (envKeyOf name)

/-- The input name `getInputs` resolves for a field: `validator.name || key`
in the source, so an absent or empty (JS-falsy) override falls back to the
field name. -/
def inputNameOf (key : String) (name : Option String) : String :=
  match name with
  | some n => if n = "" then key else n
  | none => key

/-- The error `getInputs` wraps a field's parse failure in
(`new VError(\x7bname: "GetInputsError", cause\x7d, "error parsing input " + name)`). -/
def getInputsErr (inputName : String) (cause : Err) : Err :=
  .wrapped (some "GetInputsError") ("error parsing input " ++ inputName) cause

/-- Translation of `getInputs` (revision with name overrides): iterate the
validator mapping in order, look each raw value up under its resolved name,
parse it, and abort on the first failure, wrapping it as a `GetInputsError`
naming the offending input. -/
def getInputs (env : String → Option String) :
    List (String × Validator) → Except Err (List (String × Value))
  | [] => .ok []
  | (key, validator) :: rest =>
    let inputName := inputNameOf key validator.name
    match validator.parse (getInput env inputName) with
    | .error e => .error (getInputsErr inputName e)
    | .ok v =>
      match getInputs env rest with
      | .error e => .error e
      | .ok vs => .ok ((key, v) :: vs)

/-- The lookup key exactly as the claim's sentence reads: the override is used
verbatim when supplied, and only the field-name fallback goes through the
spaces-to-underscores and upper-casing transformation.  Written from the
spec's words for comparison against the code's `envKeyOf`/`inputNameOf`. -/
def claimedLookupKey (key : String) (name : Option String) : String :=
  match name with
  | some n => "INPUT_" ++ n
  | none => envKeyOf key

/-!
Output-log parsing.  `parseOutputs` runs the JavaScript regex

  `(?<key>.+?)<<(?<delimiter>.*?)\n(?<value>.*)\n\k<delimiter>\n`  (flag `g`)

over the file contents.  The regex has neither the `s` (dotAll) nor the `m`
flag, so `.` never matches a newline.  The embedding below implements this
specific pattern's match semantics directly over `List Char`:

* `key` is `.+?` — non-greedy, so the shortest non-empty newline-free prefix
  followed by `<<` whose continuation completes a match wins
  (`matchKeyAux` tries the current prefix before growing it);
* `delimiter` is `.*?` followed by a literal `\n` — since `.` cannot match a
  newline, the delimiter is forced to be the text up to the first newline;
* `value` is `.*` followed by `\n` — greedy, but again newline-free, so it is
  forced to be the whole of the following line;
* the closing `\k<delimiter>\n` is a literal check.

The `g`-loop of `exec` restarts at the end of each match and otherwise
advances one position at a time, which `scanRecords` reproduces.
-/

/-- Matches the part of a record after `key<<`: delimiter line, value line,
and closing delimiter line.  Returns the value and the number of characters
consumed. -/
def matchAfterKey (u : List Char) : Option (List Char × Nat) :=
  let d := u.takeWhile (fun c => c ≠ '\n')
  match u.drop d.length with
  | '\n' :: w =>
    let v := w.takeWhile (fun c => c ≠ '\n')
    match w.drop v.length with
    | '\n' :: rest =>
      if (d ++ ['\n']).isPrefixOf rest then
        some (v, d.length + 1 + v.length + 1 + (d.length + 1))
      else none
    | _ => none
  | _ => none

/-- Searches for the non-greedy `key`: `acc` is the key prefix read so far;
at each step the current candidate (extended by one more non-newline
character) is tried before growing further, which is exactly the `.+?`
preference order.  Returns the key, the value and the total number of
characters consumed by the match. -/
def matchKeyAux (acc : List Char) : List Char → Option (List Char × List Char × Nat)
  | [] => none
  | c :: rest =>
    if c = '\n' then none
    else
      let acc' := acc ++ [c]
      match rest with
      | '<' :: '<' :: u =>
        (match matchAfterKey u with
         | some (v, m) => some (acc', v, acc'.length + 2 + m)
         | none => matchKeyAux acc' rest)
      | _ => matchKeyAux acc' rest

/-- A successful match consumes at least the key read so far plus one
character. -/
theorem matchKeyAux_consumes : ∀ (t acc k v : List Char) (n : Nat),
    matchKeyAux acc t = some (k, v, n) → acc.length + 1 ≤ n := by
  intro t
  induction t with
  | nil => intro acc k v n h; simp [matchKeyAux] at h
  | cons c rest ih =>
    intro acc k v n h
    rw [matchKeyAux] at h
    split at h
    · simp at h
    · split at h
      · split at h
        · simp only [Option.some.injEq, Prod.mk.injEq] at h
          obtain ⟨-, -, hn⟩ := h
          simp only [List.length_append, List.length_singleton] at hn
          omega
        · have := ih (acc ++ [c]) k v n h
          simp only [List.length_append, List.length_singleton] at this
          omega
      · have := ih (acc ++ [c]) k v n h
        simp only [List.length_append, List.length_singleton] at this
        omega

/-- The `g`-loop of `exec`, fuelled for structural recursion: scan the text
left to right, collecting every record in order; after a match, resume at its
end, otherwise advance one character.  Each step consumes at least one
character, so fuel equal to the text length always suffices
(`scanAux_eq_of_le` below). -/
def scanAux : Nat → List Char → List (List Char × List Char)
  | 0, _ => []
  | _ + 1, [] => []
  | fuel + 1, c :: rest =>
    match matchKeyAux [] (c :: rest) with
    | some (k, v, n) => (k, v) :: scanAux fuel ((c :: rest).drop n)
    | none => scanAux fuel rest

/-- Scanning the whole text for records (fuel instantiated at the length). -/
def scanRecords (t : List Char) : List (List Char × List Char) :=
  scanAux t.length t

/-- Two sufficient fuels scan identically: each scanning step consumes at
least one character, so any fuel at least the text length gives the same
record list. -/
theorem scanAux_congr : ∀ (fuelA fuelB : Nat) (t : List Char),
    t.length ≤ fuelA → t.length ≤ fuelB → scanAux fuelA t = scanAux fuelB t := by
  intro fuelA
  induction fuelA with
  | zero =>
    intro fuelB t h1 h2
    have ht : t = [] := List.eq_nil_of_length_eq_zero (Nat.le_zero.mp h1)
    subst ht
    cases fuelB <;> rfl
  | succ fuel ih =>
    intro fuelB t h1 h2
    rcases t with _ | ⟨c, rest⟩
    · cases fuelB <;> rfl
    · rcases fuelB with _ | fB
      · simp at h2
      · rcases hm : matchKeyAux [] (c :: rest) with _ | ⟨k, v, n⟩
        · simp only [scanAux, hm]
          exact ih fB rest (by simp at h1; omega) (by simp at h2; omega)
        · have hn := matchKeyAux_consumes (c :: rest) [] k v n hm
          simp only [List.length_nil] at hn
          simp only [scanAux, hm]
          rw [ih fB ((c :: rest).drop n)
            (by simp [List.length_drop]; simp at h1; omega)
            (by simp [List.length_drop]; simp at h2; omega)]

/-- Any fuel at least the text length scans exactly like `scanRecords`: the
fuel is an implementation device, not a semantic bound. -/
theorem scanAux_eq_of_le (fuel : Nat) (t : List Char) (h : t.length ≤ fuel) :
    scanAux fuel t = scanRecords t :=
  scanAux_congr fuel t.length t h (Nat.le_refl _)

/-- JS object assignment `result[key] = value` on a string-keyed object
modelled as an ordered association list: an existing key keeps its position
and gets the new value, a new key is appended. -/
def setKey : List (String × String) → String → String → List (String × String)
  | [], k, v => [(k, v)]
  | (k', v') :: rest, k, v =>
    if k' = k then (k', v) :: rest else (k', v') :: setKey rest k v

/-- The record accumulation loop of `parseOutputs`: every scanned record is
assigned into the result object in order. -/
def outputsMap (records : List (String × String)) : List (String × String) :=
  records.foldl (fun m kv => setKey m kv.1 kv.2) []

/-- Parses the whole output-log text into the result object
(`scanRecords` over the characters, then sequential assignment). -/
def outputsOf (contents : String) : List (String × String) :=
  outputsMap ((scanRecords contents.data).map
    (fun kv => (String.mk kv.1, String.mk kv.2)))

/-- JS truthiness of the optional `filePath` argument
(`filePath || process.env.GITHUB_OUTPUT`): an absent or empty string falls
through to the environment variable. -/
def resolveOutputsPath (filePath : Option String) (githubOutput : Option String) :
    Option String :=
  match filePath with
  | some p => if p = "" then githubOutput else some p
  | none => githubOutput

/-- The error `parseOutputs` throws when no file path is resolvable. -/
def noOutputPathErr : Err :=
  .simple "no output file path provided as argument nor through the GITHUB_OUTPUT environment variable"

/-- The rejection `readFile` produces for a path with no file behind it
(`ENOENT`; the exact system message is abstracted). -/
def readFileErr (path : String) : Err :=
  .simple ("ENOENT: no such file or directory, open " ++ path)

/-- Translation of `parseOutputs`: the file system is an explicit partial map
from paths to contents, `githubOutput` is the `GITHUB_OUTPUT` environment
variable.  The path falls back from the argument to the environment; with no
path the dedicated error is thrown; a missing file makes the `readFile`
rejection propagate; otherwise the contents are scanned for records. -/
def parseOutputs (fs : String → Option String) (filePath : Option String)
    (githubOutput : Option String) : Except Err (List (String × String)) :=
  match resolveOutputsPath filePath githubOutput with
  | none => .error noOutputPathErr
  | some path =>
    match fs path with
    | none => .error (readFileErr path)
    | some contents => .ok (outputsOf contents)

/-- The value of the last record with the given key, if any: the reading of
"the last occurrence wins" used to specify `outputsMap`. -/
def lastVal (k : String) : List (String × String) → Option String
  | [] => none
  | (k', v) :: rest =>
    match lastVal k rest with
    | some v' => some v'
    | none => if k' = k then some v else none

/-!
Handler dispatcher.  `runActionHandler` is embedded as a function from the
run configuration to the ordered list of observable effects it performs on
the hosting runtime: `core.debug` messages, the handler invocation itself
(recorded with the exact argument it receives), `core.setOutput` writes and
`core.setFailed` calls.  The handler is a function from its optional inputs
argument to the outcome of its promise (`Except Err` rejection or fulfillment
with a nullable outputs object); a synchronous throw inside the `try` block
and a rejected promise both surface as the same trace, so they share the
error constructor.  The trigger `context` value the debug branch stringifies
is not declared in this snapshot of the repository, so it is passed in as an
opaque rendered string. -/

/-- Observable runtime effects of a dispatcher run. -/
inductive Effect where
  | debug (msg : String)
  | invoke (inputs : Option (List (String × Value)))
  | setOutput (key value : String)
  | setFailed (msg : String)
deriving DecidableEq, Repr

/-- Deterministic stand-in for `JSON.stringify(process.env)` in the debug
tracing (the exact JSON layout is irrelevant to every claim). -/
def renderEnv (env : List (String × String)) : String :=
  String.intercalate ";" (env.map (fun kv => kv.1 ++ "=" ++ kv.2))

/-- Deterministic stand-in for `JSON.stringify` of a resolved value. -/
def renderValue : Value → String
  | .undef => "undefined"
  | .str s => "\"" ++ s ++ "\""
  | .bool b => if b then "true" else "false"
  | .arr tokens =>
    "[" ++ String.intercalate "," (tokens.map (fun s => "\"" ++ s ++ "\"")) ++ "]"

/-- Deterministic stand-in for `JSON.stringify` of the resolved inputs. -/
def renderInputs (inputs : List (String × Value)) : String :=
  String.intercalate ";" (inputs.map (fun kv => kv.1 ++ "=" ++ renderValue kv.2))

/-- The effects of forwarding one fulfilled output entry: the debug line when
the debug flag is on, then the `core.setOutput` call. -/
def outputEffects (dbg : Bool) (kv : String × String) : List Effect :=
  (if dbg then [.debug ("setting output " ++ kv.1 ++ "=" ++ kv.2)] else [])
    ++ [.setOutput kv.1 kv.2]

/-- The `.then`/`.catch` continuation of the dispatcher: a rejection makes the
single `core.setFailed` call with the fully rendered error; a nullish outputs
object is skipped; otherwise every entry is forwarded in mapping order. -/
def handleOutcome (dbg : Bool)
    (res : Except Err (Option (List (String × String)))) : List Effect :=
  match res with
  | .error e => [.setFailed (fullStack e)]
  | .ok none => []
  | .ok (some outputs) => (outputs.map (outputEffects dbg)).flatten

/-- Translation of `runActionHandler` (revision with nullable outputs): debug
tracing of environment and context when the flag is on, then either the
no-validator path (unconditional `core.debug` call, zero-argument handler
invocation) or input resolution followed by the handler invocation; a
resolution failure skips the invocation and goes straight to `core.setFailed`
with the rendered error, and the promise outcome is handled by
`handleOutcome`. -/
def runActionHandler (dbg : Bool) (env : List (String × String)) (ctx : String)
    (validators : Option (List (String × Validator)))
    (handler : Option (List (String × Value)) →
      Except Err (Option (List (String × String)))) : List Effect :=
  let debugPre : List Effect :=
    if dbg then
      [.debug ("received env: " ++ renderEnv env),
       .debug ("received context: " ++ ctx)]
    else []
  match validators with
  | none =>
    debugPre ++ [.debug "no inputs specified", .invoke none]
      ++ handleOutcome dbg (handler none)
  | some vs =>
    match getInputs (fun k => env.lookup k) vs with
    | .error e => debugPre ++ [.setFailed (fullStack e)]
    | .ok inputs =>
      debugPre
        ++ (if dbg then [.debug ("parsed out inputs: " ++ renderInputs inputs)] else [])
        ++ [.invoke (some inputs)]
        ++ handleOutcome dbg (handler (some inputs))

/-- Effect classifier: `core.setFailed` calls. -/
def Effect.isFailed : Effect → Bool
  | .setFailed _ => true
  | _ => false

/-- Effect classifier: `core.setOutput` calls. -/
def Effect.isOutput : Effect → Bool
  | .setOutput _ _ => true
  | _ => false

/-- Effect classifier: handler invocations. -/
def Effect.isInvoke : Effect → Bool
  | .invoke _ => true
  | _ => false

/-- Effect classifier: `core.debug` calls. -/
def Effect.isDebug : Effect → Bool
  | .debug _ => true
  | _ => false


/-- The `default` key of a possibly-absent `stringInput` options object. -/
def stringDflt : Option StringOptions → Option Dflt
  | none => none
  | some o => o.dflt

/-- The `default` key of a possibly-absent `arrayInput` options object. -/
def arrayDflt : Option ArrayOptions → Option Dflt
  | none => none
  | some o => o.dflt

/-- The `default` key of a possibly-absent `booleanInput` options object. -/
def booleanDflt : Option BooleanOptions → Option Dflt
  | none => none
  | some o => o.dflt

/-- The `default` key of a possibly-absent options object as `parseInput`
sees it. -/
def parseOptsDflt : Option ParseOpts → Option Dflt
  | none => none
  | some o => o.dflt

theorem parseInputT_empty_eq_none (t : String → Except Err Value)
    (o : Option ParseOpts) : parseInputT (some "") t o = parseInputT none t o := by
  simp [parseInputT]

theorem parse_missing_value (t : String → Except Err Value) (o : Option ParseOpts)
    (input : Option String) (hmiss : input = none ∨ input = some "") :
    (parseOptsDflt o = none → parseInput input t o = .error missingInputErr) ∧
    (parseOptsDflt o = some (.value .undef) → parseInput input t o = .ok .undef) ∧
    parseInput input t o = parseInput none t o := by
  have hin : parseInput input t o = (parseInputT none t o).2 := by
    rcases hmiss with h | h
    · rw [parseInput, h]
    · rw [parseInput, h, parseInputT_empty_eq_none]
  refine ⟨?_, ?_, hin⟩
  · intro hd
    rw [hin]
    rcases o with _ | po
    · simp [parseInputT]
    · simp only [parseOptsDflt] at hd
      simp [parseInputT, hd]
  · intro hd
    rw [hin]
    rcases o with _ | po
    · simp [parseOptsDflt] at hd
    · simp only [parseOptsDflt] at hd
      simp [parseInputT, hd]

theorem parse_provider_default (t : String → Except Err Value) (o : Option ParseOpts)
    (f : Unit → Except Err Value) (hd : parseOptsDflt o = some (.provider f))
    (input : Option String) (hmiss : input = none ∨ input = some "") :
    (parseInputT input t o).1 = 1 ∧
    (∀ s, s ≠ "" → (parseInputT (some s) t o).1 = 0) ∧
    (∀ e, f () = .error e → parseInput input t o = .error (providerThrewErr e)) ∧
    (∀ v, f () = .ok v → parseInput input t o = .ok v) := by
  have hin : parseInputT input t o = parseInputT none t o := by
    rcases hmiss with h | h
    · rw [h]
    · rw [h, parseInputT_empty_eq_none]
  rcases o with _ | po
  · simp [parseOptsDflt] at hd
  · simp only [parseOptsDflt] at hd
    refine ⟨?_, ?_, ?_, ?_⟩
    · rw [hin]
      rcases hf : f () with e | v <;> simp [parseInputT, hd, hf]
    · intro s hs
      simp [parseInputT, hd, hs]
    · intro e he
      rw [parseInput, hin]
      simp [parseInputT, hd, he]
    · intro v hv
      rw [parseInput, hin]
      simp [parseInputT, hd, hv]

/-- C1: for each of the three built-in validators, an absent raw value and an
empty-string raw value are treated identically as missing; with no `default`
key on the options object (or no options object at all) `parse` throws the
missing-input error; with a `default` key holding the literal `undefined`,
`parse` returns `undefined`; the presence of the key, not its value, decides
which behaviour applies. -/
theorem builtinInputs_missing_semantics (input : Option String)
    (hmiss : input = none ∨ input = some "") :
    (∀ so : Option StringOptions,
      (stringDflt so = none → (stringInput so).parse input = .error missingInputErr) ∧
      (stringDflt so = some (.value .undef) → (stringInput so).parse input = .ok .undef) ∧
      (stringInput so).parse input = (stringInput so).parse none) ∧
    (∀ ao : Option ArrayOptions,
      (arrayDflt ao = none → (arrayInput ao).parse input = .error missingInputErr) ∧
      (arrayDflt ao = some (.value .undef) → (arrayInput ao).parse input = .ok .undef) ∧
      (arrayInput ao).parse input = (arrayInput ao).parse none) ∧
    (∀ bo : Option BooleanOptions,
      (booleanDflt bo = none → (booleanInput bo).parse input = .error missingInputErr) ∧
      (booleanDflt bo = some (.value .undef) → (booleanInput bo).parse input = .ok .undef) ∧
      (booleanInput bo).parse input = (booleanInput bo).parse none) := by
  refine ⟨?_, ?_, ?_⟩
  · intro so
    have hso : parseOptsDflt (so.map StringOptions.toParseOpts) = stringDflt so := by
      rcases so with _ | o <;> rfl
    have h := parse_missing_value (stringTransform (stringChoices so))
      (so.map StringOptions.toParseOpts) input hmiss
    rw [hso] at h
    exact h
  · intro ao
    have hao : parseOptsDflt (ao.map ArrayOptions.toParseOpts) = arrayDflt ao := by
      rcases ao with _ | o <;> rfl
    have h := parse_missing_value
      (arrayTransform (arraySeparator ao) (arrayTrim ao))
      (ao.map ArrayOptions.toParseOpts) input hmiss
    rw [hao] at h
    exact h
  · intro bo
    have hbo : parseOptsDflt (bo.map BooleanOptions.toParseOpts) = booleanDflt bo := by
      rcases bo with _ | o <;> rfl
    have h := parse_missing_value booleanTransform
      (bo.map BooleanOptions.toParseOpts) input hmiss
    rw [hbo] at h
    exact h

/-- Witness for C1 at concrete configurations: a `stringInput` with no options
throws on an absent value, an `arrayInput` with an explicit `undefined`
default resolves the empty-string value to `undefined`, and a `booleanInput`
treats the empty string exactly like an absent value. -/
theorem builtinInputs_missing_semantics_witness :
    (stringInput none).parse none = .error missingInputErr ∧
    (arrayInput (some { dflt := some (.value .undef) })).parse (some "") = .ok .undef ∧
    (booleanInput none).parse (some "") = (booleanInput none).parse none :=
  ⟨((builtinInputs_missing_semantics none (Or.inl rfl)).1 none).1 rfl,
   ((builtinInputs_missing_semantics (some "") (Or.inr rfl)).2.1
      (some { dflt := some (.value .undef) })).2.1 rfl,
   ((builtinInputs_missing_semantics (some "") (Or.inr rfl)).2.2 none).2.2⟩

/-- C3: for each built-in validator configured with a zero-argument provider
default, the provider runs exactly once when and only when the raw value is
absent or empty, never when a raw value is present, and a provider failure is
re-thrown wrapped with the original error retained as the cause. -/
theorem builtinInputs_provider_default (input : Option String)
    (hmiss : input = none ∨ input = some "") :
    (∀ (so : Option StringOptions) (f : Unit → Except Err Value),
      stringDflt so = some (.provider f) →
      stringInputCalls so input = 1 ∧
      (∀ s, s ≠ "" → stringInputCalls so (some s) = 0) ∧
      (∀ e, f () = .error e → (stringInput so).parse input = .error (providerThrewErr e)) ∧
      (∀ v, f () = .ok v → (stringInput so).parse input = .ok v)) ∧
    (∀ (ao : Option ArrayOptions) (f : Unit → Except Err Value),
      arrayDflt ao = some (.provider f) →
      arrayInputCalls ao input = 1 ∧
      (∀ s, s ≠ "" → arrayInputCalls ao (some s) = 0) ∧
      (∀ e, f () = .error e → (arrayInput ao).parse input = .error (providerThrewErr e)) ∧
      (∀ v, f () = .ok v → (arrayInput ao).parse input = .ok v)) ∧
    (∀ (bo : Option BooleanOptions) (f : Unit → Except Err Value),
      booleanDflt bo = some (.provider f) →
      booleanInputCalls bo input = 1 ∧
      (∀ s, s ≠ "" → booleanInputCalls bo (some s) = 0) ∧
      (∀ e, f () = .error e → (booleanInput bo).parse input = .error (providerThrewErr e)) ∧
      (∀ v, f () = .ok v → (booleanInput bo).parse input = .ok v)) := by
  refine ⟨?_, ?_, ?_⟩
  · intro so f hf
    have hso : parseOptsDflt (so.map StringOptions.toParseOpts) = stringDflt so := by
      rcases so with _ | o <;> rfl
    exact parse_provider_default (stringTransform (stringChoices so))
      (so.map StringOptions.toParseOpts) f (hso.trans hf) input hmiss
  · intro ao f hf
    have hao : parseOptsDflt (ao.map ArrayOptions.toParseOpts) = arrayDflt ao := by
      rcases ao with _ | o <;> rfl
    exact parse_provider_default
      (arrayTransform (arraySeparator ao) (arrayTrim ao))
      (ao.map ArrayOptions.toParseOpts) f (hao.trans hf) input hmiss
  · intro bo f hf
    have hbo : parseOptsDflt (bo.map BooleanOptions.toParseOpts) = booleanDflt bo := by
      rcases bo with _ | o <;> rfl
    exact parse_provider_default booleanTransform
      (bo.map BooleanOptions.toParseOpts) f (hbo.trans hf) input hmiss

/-- Witness for C3 at concrete providers: one invocation on the missing-value
path, none when a raw value is present, and the wrapped re-throw of a failing
provider. -/
theorem builtinInputs_provider_default_witness :
    stringInputCalls (some { dflt := some (.provider (fun _ => .ok (.str "d"))) }) none = 1 ∧
    stringInputCalls (some { dflt := some (.provider (fun _ => .ok (.str "d"))) }) (some "x") = 0 ∧
    (booleanInput (some { dflt := some (.provider (fun _ => .error (.simple "pfail"))) })).parse
      (some "") = .error (providerThrewErr (.simple "pfail")) :=
  ⟨((builtinInputs_provider_default none (Or.inl rfl)).1
      (some { dflt := some (.provider (fun _ => .ok (.str "d"))) })
      (fun _ => .ok (.str "d")) rfl).1,
   ((builtinInputs_provider_default none (Or.inl rfl)).1
      (some { dflt := some (.provider (fun _ => .ok (.str "d"))) })
      (fun _ => .ok (.str "d")) rfl).2.1 "x" (by decide),
   ((builtinInputs_provider_default (some "") (Or.inr rfl)).2.2
      (some { dflt := some (.provider (fun _ => .error (.simple "pfail"))) })
      (fun _ => .error (.simple "pfail")) rfl).2.2.1 (.simple "pfail") rfl⟩

/-- C8: for `stringInput` with a non-empty `choices` list, a present raw value
must be one of the choices or `parse` throws the choice error; the check fires
only after the missing-value branch, so a value coming from the `default`
option (static or provider) is returned without ever being checked against
the choices. -/
theorem stringInput_choices_semantics (o : StringOptions) (cs : List String)
    (hcs : o.choices = some cs) (hne : cs ≠ []) :
    (∀ s, s ≠ "" →
      (cs.contains s = true →
        (stringInput (some o)).parse (some s) = .ok (.str s)) ∧
      (cs.contains s = false →
        (stringInput (some o)).parse (some s) = .error (invalidChoiceErr s cs))) ∧
    (∀ v, o.dflt = some (.value v) →
      (stringInput (some o)).parse none = .ok v ∧
      (stringInput (some o)).parse (some "") = .ok v) ∧
    (∀ (f : Unit → Except Err Value) (v : Value),
      o.dflt = some (.provider f) → f () = .ok v →
      (stringInput (some o)).parse none = .ok v) := by
  have hlen : cs.length ≠ 0 := fun h0 => hne (List.length_eq_zero.mp h0)
  refine ⟨?_, ?_, ?_⟩
  · intro s hs
    constructor
    · intro hmem
      have hmem' : s ∈ cs := by simpa using hmem
      simp [stringInput, parseInputT, stringChoices, hcs, stringTransform, hs, hlen, hmem']
    · intro hmem
      have hmem' : s ∉ cs := by simpa using hmem
      simp [stringInput, parseInputT, stringChoices, hcs, stringTransform, hs, hlen, hmem']
  · intro v hv
    constructor <;>
      simp [stringInput, parseInputT, StringOptions.toParseOpts, hv]
  · intro f v hf hfv
    simp [stringInput, parseInputT, StringOptions.toParseOpts, hf, hfv]

/-- Witness for C8: with choices one/two/three, "two" is accepted, "four" is
rejected, and a static default "zero" outside the choices is returned for a
missing value. -/
theorem stringInput_choices_semantics_witness :
    (stringInput (some { choices := some ["one", "two", "three"] })).parse (some "two")
      = .ok (.str "two") ∧
    (stringInput (some { choices := some ["one", "two", "three"] })).parse (some "four")
      = .error (invalidChoiceErr "four" ["one", "two", "three"]) ∧
    (stringInput
        (some { dflt := some (.value (.str "zero")),
                choices := some ["one", "two", "three"] })).parse none
      = .ok (.str "zero") :=
  ⟨((stringInput_choices_semantics { choices := some ["one", "two", "three"] }
      ["one", "two", "three"] rfl (by decide)).1 "two" (by decide)).1 (by decide),
   ((stringInput_choices_semantics { choices := some ["one", "two", "three"] }
      ["one", "two", "three"] rfl (by decide)).1 "four" (by decide)).2 (by decide),
   (((stringInput_choices_semantics
        { dflt := some (.value (.str "zero")),
          choices := some ["one", "two", "three"] }
        ["one", "two", "three"] rfl (by decide)).2.1 (.str "zero") rfl)).1⟩

/-- C10: for `stringInput` constructed with an empty `choices` array, choice
validation is skipped entirely and every present raw value is returned
unchanged. -/
theorem stringInput_empty_choices (o : StringOptions) (hcs : o.choices = some [])
    (s : String) (hs : s ≠ "") :
    (stringInput (some o)).parse (some s) = .ok (.str s) := by
  simp [stringInput, parseInputT, stringChoices, hcs, stringTransform, hs]

/-- Witness for C10: "four" matches no element of the empty choices list and
still parses. -/
theorem stringInput_empty_choices_witness :
    (stringInput (some { choices := some ([] : List String) })).parse (some "four")
      = .ok (.str "four") :=
  stringInput_empty_choices { choices := some [] } rfl "four" (by decide)

/-- Counterexample for C9: with field name "toto" and override "tutu", the
claim's reading predicts the lookup key `INPUT_tutu` (override used verbatim),
but `getInputs` consults `INPUT_TUTU` — the override goes through the same
spaces-to-underscores and upper-casing transformation as a field name — so an
environment binding only `INPUT_TUTU` is found even though the claimed key is
unbound. -/
theorem getInputs_lookup_key_counterexample :
    claimedLookupKey "toto" (some "tutu") = "INPUT_tutu" ∧
    envKeyOf (inputNameOf "toto" (some "tutu")) = "INPUT_TUTU" ∧
    getInputs (fun k => if k = "INPUT_TUTU" then some "x" else none)
      [("toto", stringInput (some { name := some "tutu" }))]
      = .ok [("toto", .str "x")] ∧
    (fun k => if k = "INPUT_TUTU" then some "x" else none)
      (claimedLookupKey "toto" (some "tutu")) = none := by
  refine ⟨rfl, by rfl, by rfl, by rfl⟩

/-- C9 amended: for every field, the raw value is looked up in the
environment under the key `INPUT_` followed by the resolved input name — the
`name` override when supplied and non-empty (a JS-falsy empty override falls
back to the field name), otherwise the field name — with spaces replaced by
underscores and the whole upper-cased; `getInputs` uses exactly this lookup
for the field's parse and wraps failures naming the resolved input name. -/
theorem getInputs_lookup_key (env : String → Option String) (key : String)
    (v : Validator) (rest : List (String × Validator)) :
    getInput env (inputNameOf key v.name)
      = env ("INPUT_" ++ String.mk
          ((((inputNameOf key v.name).data.map
            (fun c => if c = ' ' then '_' else c)).map Char.toUpper))) ∧
    inputNameOf key none = key ∧
    (∀ n, n ≠ "" → inputNameOf key (some n) = n) ∧
    inputNameOf key (some "") = key ∧
    (∀ val, v.parse (getInput env (inputNameOf key v.name)) = .ok val →
      getInputs env ((key, v) :: rest)
        = match getInputs env rest with
          | .ok vs => .ok ((key, val) :: vs)
          | .error e => .error e) ∧
    (∀ e, v.parse (getInput env (inputNameOf key v.name)) = .error e →
      getInputs env ((key, v) :: rest)
        = .error (getInputsErr (inputNameOf key v.name) e)) := by
  refine ⟨rfl, rfl, ?_, rfl, ?_, ?_⟩
  · intro n hn
    simp [inputNameOf, hn]
  · intro val hval
    simp only [getInputs, hval]
    rcases getInputs env rest with e | vs <;> rfl
  · intro e he
    simp [getInputs, he]

/-- Witness for C9 at a concrete field with a space in its name and no
override: the raw value is found under `INPUT_MY_KEY`. -/
theorem getInputs_lookup_key_witness :
    getInputs (fun k => if k = "INPUT_MY_KEY" then some "x" else none)
      [("my key", stringInput none)] = .ok [("my key", .str "x")] := by
  have h := (getInputs_lookup_key
    (fun k => if k = "INPUT_MY_KEY" then some "x" else none)
    "my key" (stringInput none) []).2.2.2.2.1 (.str "x") (by rfl)
  simpa [getInputs] using h

theorem lookup_setKey (m : List (String × String)) (a k : String) (b : String) :
    List.lookup k (setKey m a b) = if a = k then some b else List.lookup k m := by
  induction m with
  | nil =>
    by_cases h : a = k
    · subst h
      simp [setKey, List.lookup]
    · have hb : (k == a) = false := beq_eq_false_iff_ne.mpr (fun h' => h h'.symm)
      simp [setKey, List.lookup, h, hb]
  | cons kv rest ih =>
    obtain ⟨k', v'⟩ := kv
    by_cases h1 : k' = a
    · subst h1
      by_cases h2 : k' = k
      · subst h2
        simp [setKey, List.lookup]
      · have hb : (k == k') = false := beq_eq_false_iff_ne.mpr (fun h' => h2 h'.symm)
        have ha : ¬ k' = k := h2
        simp [setKey, List.lookup, hb, ha]
    · by_cases h2 : k' = k
      · subst h2
        have ha : ¬ a = k' := fun h' => h1 h'.symm
        simp [setKey, List.lookup, h1, ha]
      · have hb : (k == k') = false := beq_eq_false_iff_ne.mpr (fun h' => h2 h'.symm)
        simp [setKey, List.lookup, h1, hb, ih]

theorem lookup_outputsMap_loop (records : List (String × String))
    (m : List (String × String)) (k : String) :
    List.lookup k (records.foldl (fun acc kv => setKey acc kv.1 kv.2) m)
      = match lastVal k records with
        | some v => some v
        | none => List.lookup k m := by
  induction records generalizing m with
  | nil => simp [lastVal]
  | cons kv rest ih =>
    simp only [List.foldl_cons, lastVal]
    rw [ih]
    rcases h : lastVal k rest with _ | v'
    · rw [lookup_setKey]
      by_cases hk : kv.1 = k <;> simp [hk]
    · rfl

/-- Looking a key up in the accumulated output object yields the value of the
last record carrying that key: sequential overwrite semantics. -/
theorem lookup_outputsMap (records : List (String × String)) (k : String) :
    List.lookup k (outputsMap records) = lastVal k records := by
  rw [outputsMap, lookup_outputsMap_loop]
  rcases h : lastVal k records with _ | v <;> simp

/-- C4 (code bug): a well-formed heredoc record whose value embeds a newline
is not matched at all — the regex's value group `.*` cannot cross a newline
because the `s` flag is absent — so `parseOutputs` silently drops the record
and returns an empty mapping, while the very same record shape with a
single-line value parses fine. -/
theorem parseOutputs_multiline_value_dropped :
    outputsOf "toto<<delim\ntata\nbaba\ndelim\n" = [] ∧
    outputsOf "toto<<delim\ntata\ndelim\n" = [("toto", "tata")] ∧
    parseOutputs
      (fun p => if p = "out" then some "toto<<delim\ntata\nbaba\ndelim\n" else none)
      (some "out") none = .ok [] := by
  refine ⟨by rfl, by rfl, by rfl⟩

/-- Counterexample for C5: an absent log file does not yield an empty
mapping — the `readFile` rejection propagates out of `parseOutputs` even
though a file path was available, so the failure condition is not "no file
path" alone. -/
theorem parseOutputs_absent_file_counterexample :
    parseOutputs (fun _ => none) (some "outputs.txt") none
      = .error (readFileErr "outputs.txt") ∧
    resolveOutputsPath (some "outputs.txt") none = some "outputs.txt" ∧
    parseOutputs (fun _ => none) (some "outputs.txt") none ≠ .ok [] := by
  refine ⟨by rfl, by rfl, ?_⟩
  intro h
  rw [show parseOutputs (fun _ => none) (some "outputs.txt") none
    = .error (readFileErr "outputs.txt") from rfl] at h
  exact Except.noConfusion h

/-- C5 amended: `parseOutputs` scans the whole log for records in order and
the last occurrence of a key wins; an empty log yields an empty mapping; an
absent log file makes `parseOutputs` fail with the propagated read error;
`parseOutputs` fails exactly when no file path is available or the file read
fails. -/
theorem parseOutputs_semantics (fs : String → Option String)
    (filePath githubOutput : Option String) :
    (∀ records k, List.lookup k (outputsMap records) = lastVal k records) ∧
    outputsOf "" = [] ∧
    (resolveOutputsPath filePath githubOutput = none →
      parseOutputs fs filePath githubOutput = .error noOutputPathErr) ∧
    (∀ path, resolveOutputsPath filePath githubOutput = some path →
      fs path = none →
      parseOutputs fs filePath githubOutput = .error (readFileErr path)) ∧
    (∀ path contents, resolveOutputsPath filePath githubOutput = some path →
      fs path = some contents →
      parseOutputs fs filePath githubOutput = .ok (outputsOf contents)) ∧
    ((∃ e, parseOutputs fs filePath githubOutput = .error e) ↔
      (resolveOutputsPath filePath githubOutput = none ∨
        ∃ path, resolveOutputsPath filePath githubOutput = some path ∧
          fs path = none)) := by
  refine ⟨lookup_outputsMap, rfl, ?_, ?_, ?_, ?_⟩
  · intro h
    simp [parseOutputs, h]
  · intro path hp hf
    simp [parseOutputs, hp, hf]
  · intro path contents hp hf
    simp [parseOutputs, hp, hf]
  · constructor
    · rintro ⟨e, he⟩
      rcases hp : resolveOutputsPath filePath githubOutput with _ | path
      · exact Or.inl rfl
      · rcases hf : fs path with _ | contents
        · exact Or.inr ⟨path, rfl, hf⟩
        · exfalso
          rw [parseOutputs] at he
          simp [hp, hf] at he
    · rintro (hp | ⟨path, hp, hf⟩)
      · exact ⟨noOutputPathErr, by simp [parseOutputs, hp]⟩
      · exact ⟨readFileErr path, by simp [parseOutputs, hp, hf]⟩

/-- Witness for C5: the last of three records for the same key wins, a
missing path fails with the dedicated error, and an existing empty log parses
to the empty mapping. -/
theorem parseOutputs_semantics_witness :
    List.lookup "string" (outputsMap [("string", "a"), ("string", "b"), ("string", "c")])
      = some "c" ∧
    parseOutputs (fun _ => none) none none = .error noOutputPathErr ∧
    parseOutputs (fun p => if p = "out" then some "" else none) none (some "out")
      = .ok [] := by
  refine ⟨?_, ?_, ?_⟩
  · exact ((parseOutputs_semantics (fun _ => none) none none).1
      [("string", "a"), ("string", "b"), ("string", "c")] "string").trans (by rfl)
  · exact (parseOutputs_semantics (fun _ => none) none none).2.2.1 rfl
  · have h := (parseOutputs_semantics (fun p => if p = "out" then some "" else none)
      none (some "out")).2.2.2.2.1 "out" "" rfl (by rfl)
    rw [h]
    rfl

theorem flatten_outputs_filter_failed (dbg : Bool) (outs : List (String × String)) :
    ((outs.map (outputEffects dbg)).flatten).filter Effect.isFailed = [] := by
  induction outs with
  | nil => rfl
  | cons kv rest ih => cases dbg <;> simp_all [outputEffects, Effect.isFailed]

theorem flatten_outputs_filter_invoke (dbg : Bool) (outs : List (String × String)) :
    ((outs.map (outputEffects dbg)).flatten).filter Effect.isInvoke = [] := by
  induction outs with
  | nil => rfl
  | cons kv rest ih => cases dbg <;> simp_all [outputEffects, Effect.isInvoke]

theorem flatten_outputs_filter_output (dbg : Bool) (outs : List (String × String)) :
    ((outs.map (outputEffects dbg)).flatten).filter Effect.isOutput
      = outs.map (fun kv => Effect.setOutput kv.1 kv.2) := by
  induction outs with
  | nil => rfl
  | cons kv rest ih => cases dbg <;> simp_all [outputEffects, Effect.isOutput]

theorem flatten_outputs_filter_nondebug (dbg : Bool) (outs : List (String × String)) :
    ((outs.map (outputEffects dbg)).flatten).filter (fun e => !(e.isDebug))
      = outs.map (fun kv => Effect.setOutput kv.1 kv.2) := by
  induction outs with
  | nil => rfl
  | cons kv rest ih => cases dbg <;> simp_all [outputEffects, Effect.isDebug]

theorem handleOutcome_filter_failed (dbg : Bool)
    (res : Except Err (Option (List (String × String)))) :
    (handleOutcome dbg res).filter Effect.isFailed
      = match res with
        | .error e => [.setFailed (fullStack e)]
        | .ok _ => [] := by
  rcases res with e | o
  · simp [handleOutcome, Effect.isFailed]
  · rcases o with _ | outs
    · rfl
    · show ((outs.map (outputEffects dbg)).flatten).filter Effect.isFailed = []
      exact flatten_outputs_filter_failed dbg outs

theorem handleOutcome_filter_invoke (dbg : Bool)
    (res : Except Err (Option (List (String × String)))) :
    (handleOutcome dbg res).filter Effect.isInvoke = [] := by
  rcases res with e | o
  · simp [handleOutcome, Effect.isInvoke]
  · rcases o with _ | outs
    · rfl
    · show ((outs.map (outputEffects dbg)).flatten).filter Effect.isInvoke = []
      exact flatten_outputs_filter_invoke dbg outs

theorem handleOutcome_filter_output (dbg : Bool)
    (res : Except Err (Option (List (String × String)))) :
    (handleOutcome dbg res).filter Effect.isOutput
      = match res with
        | .ok (some outs) => outs.map (fun kv => Effect.setOutput kv.1 kv.2)
        | _ => [] := by
  rcases res with e | o
  · simp [handleOutcome, Effect.isOutput]
  · rcases o with _ | outs
    · rfl
    · show ((outs.map (outputEffects dbg)).flatten).filter Effect.isOutput
        = outs.map (fun kv => Effect.setOutput kv.1 kv.2)
      exact flatten_outputs_filter_output dbg outs

theorem handleOutcome_filter_nondebug (dbg : Bool)
    (res : Except Err (Option (List (String × String)))) :
    (handleOutcome dbg res).filter (fun e => !(e.isDebug))
      = match res with
        | .error e => [.setFailed (fullStack e)]
        | .ok none => []
        | .ok (some outs) => outs.map (fun kv => Effect.setOutput kv.1 kv.2) := by
  rcases res with e | o
  · simp [handleOutcome, Effect.isDebug]
  · rcases o with _ | outs
    · rfl
    · show ((outs.map (outputEffects dbg)).flatten).filter (fun e => !(e.isDebug))
        = outs.map (fun kv => Effect.setOutput kv.1 kv.2)
      exact flatten_outputs_filter_nondebug dbg outs

theorem run_filter_failed (dbg : Bool) (env : List (String × String)) (ctx : String)
    (validators : Option (List (String × Validator)))
    (handler : Option (List (String × Value)) →
      Except Err (Option (List (String × String)))) :
    (runActionHandler dbg env ctx validators handler).filter Effect.isFailed
      = match validators with
        | none =>
          (match handler none with
           | .error e => [.setFailed (fullStack e)]
           | .ok _ => [])
        | some vs =>
          match getInputs (fun k => env.lookup k) vs with
          | .error e => [.setFailed (fullStack e)]
          | .ok inputs =>
            (match handler (some inputs) with
             | .error e => [.setFailed (fullStack e)]
             | .ok _ => []) := by
  rcases validators with _ | vs
  · cases dbg <;>
      simp [runActionHandler, List.filter_append, handleOutcome_filter_failed,
        Effect.isFailed]
  · rcases hg : getInputs (fun k => env.lookup k) vs with e | inputs
    · cases dbg <;>
        simp [runActionHandler, hg, List.filter_append, Effect.isFailed]
    · cases dbg <;>
        simp [runActionHandler, hg, List.filter_append, handleOutcome_filter_failed,
          Effect.isFailed]

theorem run_filter_invoke (dbg : Bool) (env : List (String × String)) (ctx : String)
    (validators : Option (List (String × Validator)))
    (handler : Option (List (String × Value)) →
      Except Err (Option (List (String × String)))) :
    (runActionHandler dbg env ctx validators handler).filter Effect.isInvoke
      = match validators with
        | none => [.invoke none]
        | some vs =>
          match getInputs (fun k => env.lookup k) vs with
          | .error _ => []
          | .ok inputs => [.invoke (some inputs)] := by
  rcases validators with _ | vs
  · cases dbg <;>
      simp [runActionHandler, List.filter_append, handleOutcome_filter_invoke,
        Effect.isInvoke]
  · rcases hg : getInputs (fun k => env.lookup k) vs with e | inputs
    · cases dbg <;>
        simp [runActionHandler, hg, List.filter_append, Effect.isInvoke]
    · cases dbg <;>
        simp [runActionHandler, hg, List.filter_append, handleOutcome_filter_invoke,
          Effect.isInvoke]

theorem run_filter_output (dbg : Bool) (env : List (String × String)) (ctx : String)
    (validators : Option (List (String × Validator)))
    (handler : Option (List (String × Value)) →
      Except Err (Option (List (String × String)))) :
    (runActionHandler dbg env ctx validators handler).filter Effect.isOutput
      = match validators with
        | none =>
          (match handler none with
           | .ok (some outs) => outs.map (fun kv => Effect.setOutput kv.1 kv.2)
           | _ => [])
        | some vs =>
          match getInputs (fun k => env.lookup k) vs with
          | .error _ => []
          | .ok inputs =>
            (match handler (some inputs) with
             | .ok (some outs) => outs.map (fun kv => Effect.setOutput kv.1 kv.2)
             | _ => []) := by
  rcases validators with _ | vs
  · cases dbg <;>
      simp [runActionHandler, List.filter_append, handleOutcome_filter_output,
        Effect.isOutput]
  · rcases hg : getInputs (fun k => env.lookup k) vs with e | inputs
    · cases dbg <;>
        simp [runActionHandler, hg, List.filter_append, Effect.isOutput]
    · cases dbg <;>
        simp [runActionHandler, hg, List.filter_append, handleOutcome_filter_output,
          Effect.isOutput]

/-- C2: the dispatcher never performs more than one `core.setFailed` call per
run; a failed input resolution produces a trace that is independent of the
handler (so the handler is never invoked) and exactly one `core.setFailed`
call carrying the fully rendered error with its cause chain; a rejected
handler promise likewise produces exactly one such call, on both the
with-validators and the no-validators path. -/
theorem runActionHandler_failure_semantics (dbg : Bool)
    (env : List (String × String)) (ctx : String)
    (vs : List (String × Validator))
    (handler handlerB : Option (List (String × Value)) →
      Except Err (Option (List (String × String)))) :
    ((runActionHandler dbg env ctx (some vs) handler).filter Effect.isFailed).length ≤ 1 ∧
    ((runActionHandler dbg env ctx none handler).filter Effect.isFailed).length ≤ 1 ∧
    (∀ e, getInputs (fun k => env.lookup k) vs = .error e →
      runActionHandler dbg env ctx (some vs) handler
        = runActionHandler dbg env ctx (some vs) handlerB ∧
      (runActionHandler dbg env ctx (some vs) handler).filter Effect.isInvoke = [] ∧
      (runActionHandler dbg env ctx (some vs) handler).filter Effect.isFailed
        = [.setFailed (fullStack e)]) ∧
    (∀ inputs e, getInputs (fun k => env.lookup k) vs = .ok inputs →
      handler (some inputs) = .error e →
      (runActionHandler dbg env ctx (some vs) handler).filter Effect.isFailed
        = [.setFailed (fullStack e)]) ∧
    (∀ e, handler none = .error e →
      (runActionHandler dbg env ctx none handler).filter Effect.isFailed
        = [.setFailed (fullStack e)]) := by
  refine ⟨?_, ?_, ?_, ?_, ?_⟩
  · rw [run_filter_failed]
    rcases hg : getInputs (fun k => env.lookup k) vs with e | inputs
    · simp [hg]
    · rcases hh : handler (some inputs) with e | o <;> simp [hg, hh]
  · rw [run_filter_failed]
    rcases hh : handler none with e | o <;> simp [hh]
  · intro e hg
    refine ⟨?_, ?_, ?_⟩
    · simp [runActionHandler, hg]
    · rw [run_filter_invoke]
      simp [hg]
    · rw [run_filter_failed]
      simp [hg]
  · intro inputs e hg hh
    rw [run_filter_failed]
    simp [hg, hh]
  · intro e hh
    rw [run_filter_failed]
    simp [hh]

/-- Witness for C2: a required input missing from an empty environment makes
the run fail exactly once with the wrapped resolution error, and a rejecting
handler on the no-validator path fails exactly once with its own error. -/
theorem runActionHandler_failure_semantics_witness :
    (runActionHandler false [] "" (some [("a", stringInput none)])
      (fun _ => .ok none)).filter Effect.isFailed
      = [.setFailed (fullStack (getInputsErr "a" missingInputErr))] ∧
    (runActionHandler false [] "" none
      (fun _ => .error (.simple "boom"))).filter Effect.isFailed
      = [.setFailed (fullStack (.simple "boom"))] :=
  ⟨((runActionHandler_failure_semantics false [] "" [("a", stringInput none)]
      (fun _ => .ok none) (fun _ => .ok none)).2.2.1
      (getInputsErr "a" missingInputErr) (by rfl)).2.2,
   (runActionHandler_failure_semantics false [] "" []
      (fun _ => .error (.simple "boom")) (fun _ => .error (.simple "boom"))).2.2.2.2
      (.simple "boom") rfl⟩

/-- C6: when the handler's promise fulfills with a present outputs mapping,
the dispatcher forwards exactly one `core.setOutput` call per entry in
mapping order and does not mark the run failed; when the fulfilled outputs
are absent (or the mapping is empty, in which case the map below is empty),
no output-setting call occurs and the run is not marked failed — on both the
no-validator and the with-validators path. -/
theorem runActionHandler_outputs_forwarding (dbg : Bool)
    (env : List (String × String)) (ctx : String)
    (vs : List (String × Validator))
    (handler : Option (List (String × Value)) →
      Except Err (Option (List (String × String))))
    (inputs : List (String × Value)) (outs : List (String × String)) :
    (handler none = .ok (some outs) →
      (runActionHandler dbg env ctx none handler).filter Effect.isOutput
        = outs.map (fun kv => Effect.setOutput kv.1 kv.2) ∧
      (runActionHandler dbg env ctx none handler).filter Effect.isFailed = []) ∧
    (handler none = .ok none →
      (runActionHandler dbg env ctx none handler).filter Effect.isOutput = [] ∧
      (runActionHandler dbg env ctx none handler).filter Effect.isFailed = []) ∧
    (getInputs (fun k => env.lookup k) vs = .ok inputs →
      handler (some inputs) = .ok (some outs) →
      (runActionHandler dbg env ctx (some vs) handler).filter Effect.isOutput
        = outs.map (fun kv => Effect.setOutput kv.1 kv.2) ∧
      (runActionHandler dbg env ctx (some vs) handler).filter Effect.isFailed = []) ∧
    (getInputs (fun k => env.lookup k) vs = .ok inputs →
      handler (some inputs) = .ok none →
      (runActionHandler dbg env ctx (some vs) handler).filter Effect.isOutput = [] ∧
      (runActionHandler dbg env ctx (some vs) handler).filter Effect.isFailed = []) := by
  refine ⟨?_, ?_, ?_, ?_⟩
  · intro hh
    constructor
    · rw [run_filter_output]
      simp [hh]
    · rw [run_filter_failed]
      simp [hh]
  · intro hh
    constructor
    · rw [run_filter_output]
      simp [hh]
    · rw [run_filter_failed]
      simp [hh]
  · intro hg hh
    constructor
    · rw [run_filter_output]
      simp [hg, hh]
    · rw [run_filter_failed]
      simp [hg, hh]
  · intro hg hh
    constructor
    · rw [run_filter_output]
      simp [hg, hh]
    · rw [run_filter_failed]
      simp [hg, hh]

/-- Witness for C6: two fulfilled output entries are forwarded in order; a
nullish fulfillment forwards nothing; neither marks the run failed. -/
theorem runActionHandler_outputs_forwarding_witness :
    (runActionHandler false [] "" none
      (fun _ => .ok (some [("k1", "v1"), ("k2", "v2")]))).filter Effect.isOutput
      = [.setOutput "k1" "v1", .setOutput "k2" "v2"] ∧
    (runActionHandler false [] "" none (fun _ => .ok none)).filter Effect.isOutput
      = [] ∧
    (runActionHandler false [] "" none (fun _ => .ok none)).filter Effect.isFailed
      = [] := by
  refine ⟨?_, ?_, ?_⟩
  · have h := ((runActionHandler_outputs_forwarding false [] "" []
      (fun _ => .ok (some [("k1", "v1"), ("k2", "v2")])) []
      [("k1", "v1"), ("k2", "v2")]).1 rfl).1
    simpa using h
  · exact ((runActionHandler_outputs_forwarding false [] "" []
      (fun _ => .ok none) [] []).2.1 rfl).1
  · exact ((runActionHandler_outputs_forwarding false [] "" []
      (fun _ => .ok none) [] []).2.1 rfl).2

@[simp] theorem isDebug_debug (m : String) : Effect.isDebug (.debug m) = true := rfl

@[simp] theorem isDebug_invoke (i : Option (List (String × Value))) :
    Effect.isDebug (.invoke i) = false := rfl

@[simp] theorem isDebug_setOutput (k v : String) :
    Effect.isDebug (.setOutput k v) = false := rfl

@[simp] theorem isDebug_setFailed (m : String) :
    Effect.isDebug (.setFailed m) = false := rfl

/-- C7: a dispatcher run with the debug flag on and one with it off differ
only in the emitted `core.debug` messages: filtering the debug effects out of
both traces yields identical effect lists (same handler invocation with the
same argument, same output writes, same failure marking), for every
environment, context, validator set and handler. -/
theorem runActionHandler_debug_noninterference (env : List (String × String))
    (ctx : String) (validators : Option (List (String × Validator)))
    (handler : Option (List (String × Value)) →
      Except Err (Option (List (String × String)))) :
    (runActionHandler true env ctx validators handler).filter (fun e => !(e.isDebug))
      = (runActionHandler false env ctx validators handler).filter
          (fun e => !(e.isDebug)) := by
  rcases validators with _ | vs
  · simp [runActionHandler, List.filter_append, handleOutcome_filter_nondebug]
  · rcases hg : getInputs (fun k => env.lookup k) vs with e | inputs
    · simp [runActionHandler, hg, List.filter_append]
    · simp [runActionHandler, hg, List.filter_append, handleOutcome_filter_nondebug]
